import Mathlib

/-!
Verification of the OpenClaw supervisor bot (src/supervisor/supervisor.py)
against its natural-language specification.

The Python source is shallowly embedded: Python strings become `String` or
`List Char` (one element per code point), Python floats returned by
`time.time()` become `ℚ`, Python `int` becomes `Int`/`Nat`, fallible calls
become `Except`/`Option`, and the effectful Telegram calls become an explicit
trace of `Effect` values.  The `while` loop of `chunk_text` is embedded with
explicit fuel so that non-termination is observable as `none`.
-/

set_option maxHeartbeats 1000000
set_option maxRecDepth 4000

/-! ## Python-style string helpers -/

/-- Characters stripped by Python `str.strip()` (ASCII whitespace; the
supervisor only strips output of subprocesses and user chat text). -/
def pyIsSpace (c : Char) : Bool :=
  c == ' ' || c == '\t' || c == '\n' || c == '\r' || c == '\x0b' || c == '\x0c'

/-- Python `s.strip()`. -/
def pyStrip (s : String) : String :=
  String.mk (((s.toList.dropWhile pyIsSpace).reverse.dropWhile pyIsSpace).reverse)

/-- Python `needle in hay` substring test. -/
def containsSubstr (hay needle : String) : Bool :=
  (List.range (hay.toList.length + 1)).any fun i => needle.toList.isPrefixOf (hay.toList.drop i)

/-- Helper for Python `str.split()` with no argument: split on runs of
whitespace, producing no empty words.  `cur` holds the current word reversed. -/
def wordsAux : List Char → List Char → List (List Char)
  | [], cur => if cur.isEmpty then [] else [cur.reverse]
  | c :: rest, cur =>
    if pyIsSpace c then
      if cur.isEmpty then wordsAux rest [] else cur.reverse :: wordsAux rest []
    else wordsAux rest (c :: cur)

/-- Python `s.split()`. -/
def pySplit (s : String) : List String :=
  (wordsAux s.toList []).map String.mk

/-- Python truthiness of an optional string (`if new_session_id:`):
`None` and the empty string are falsy. -/
def pyTruthyStr : Option String → Bool
  | none => false
  | some s => s ≠ ""

/-- Python truthiness of an optional int (`if placeholder:`):
`None` and `0` are falsy. -/
def pyTruthyInt : Option Int → Bool
  | none => false
  | some i => i ≠ 0

/-- Python `s.isdigit()` restricted to ASCII digits. -/
def isDigits (s : String) : Bool :=
  s ≠ "" && s.toList.all Char.isDigit

/-- Numeric value of an ASCII digit string (Python `int(s)` after `isdigit`). -/
def strToNat (s : String) : Nat :=
  s.toList.foldl (fun acc c => acc * 10 + (c.toNat - 48)) 0

/-! ## Text Chunker (`chunk_text`, supervisor.py lines 123-139)

Python `text.rfind(c, 0, limit)` returns the largest index of `c` in
`text[0:limit]`, or `-1`.  The `while text:` loop is embedded with fuel:
`none` means the fuel ran out, and a result that is `none` for every fuel
value is a non-terminating loop.  Alongside each produced chunk we record the
newline run stripped from the remainder by `lstrip("\n")`, so that the
reconstruction property can be stated. -/

/-- Scan `l` keeping the index (`i` counts from the caller's offset) of the
last occurrence of `c`; `best` is the best index found so far (or -1). -/
def lastIdxOfAux (c : Char) : List Char → Nat → Int → Int
  | [], _, best => best
  | ch :: rest, i, best => lastIdxOfAux c rest (i + 1) (if ch = c then (i : Int) else best)

/-- Python `text.rfind(c, 0, stop)` on a list of characters. -/
def pyRfind (s : List Char) (c : Char) (stop : Nat) : Int :=
  lastIdxOfAux c (s.take stop) 0 (-1)

/-- The cut position chosen by one iteration of the `chunk_text` loop:
prefer the last newline before `limit` if past `limit // 2`, else the last
space before `limit` if past `limit // 4`, else a hard cut at `limit`. -/
def chunkCut (text : List Char) (limit : Nat) : Int :=
  let cut1 := pyRfind text '\n' limit
  let cut2 := if cut1 < ((limit / 2 : Nat) : Int) then pyRfind text ' ' limit else cut1
  if cut2 < ((limit / 4 : Nat) : Int) then (limit : Int) else cut2

/-- The `while text:` loop of `chunk_text`, with fuel.  Each produced pair is
(chunk, run of newlines stripped from the remainder after the cut): the loop
appends `text[:cut]` and continues on `text[cut:].lstrip("\n")`. -/
def chunkLoop (limit : Nat) : Nat → List Char → Option (List (List Char × List Char))
  | 0, _ => none
  | fuel + 1, text =>
    if text.isEmpty then some []
    else if text.length ≤ limit then some [(text, [])]
    else
      match chunkLoop limit fuel
          ((text.drop (chunkCut text limit).toNat).dropWhile (fun ch => ch == '\n')) with
      | none => none
      | some tl =>
        some ((text.take (chunkCut text limit).toNat,
               (text.drop (chunkCut text limit).toNat).takeWhile (fun ch => ch == '\n')) :: tl)

/-- `chunk_text(text, limit)`: the early return for short text, then the loop.
The stripped-newline annotations are dropped, matching the Python return
value. -/
def chunk_text (fuel : Nat) (text : List Char) (limit : Nat) : Option (List (List Char)) :=
  if text.length ≤ limit then some [text]
  else (chunkLoop limit fuel text).map (List.map Prod.fst)

/-- Concatenation of chunks with their stripped newline runs re-inserted. -/
def joinPairs (ps : List (List Char × List Char)) : List Char :=
  ps.foldr (fun p acc => p.1 ++ p.2 ++ acc) []

/-! ## Streaming Process Runner (`run_claude_streaming`, supervisor.py lines 176-261)

One stdout line of the child process is either undecodable (empty after
stripping, or invalid JSON — both silently skipped) or a decoded event.  A
decoded event is modelled by the four fields the code reads: `type`
(`event.get("type", "")`), and the optional `message`, `result` and
`session_id` entries (string-valued in the stream-json protocol).  Each line
carries the wall-clock value `time.time()` observed at the deadline check of
its loop iteration.  `on_partial` being supplied is the flag `cb`; the texts
it is called with are recorded in order. -/

/-- A decoded stream-json event, restricted to the fields the code reads. -/
structure Event where
  etype : String
  message : Option String
  result : Option String
  session_id : Option String
deriving DecidableEq

/-- One line of child stdout: skipped, or a decoded event. -/
inductive Line where
  | junk
  | event (e : Event)
deriving DecidableEq

/-- A stdout line together with the `time.time()` value observed when the
loop reaches it. -/
structure TimedLine where
  time : ℚ
  line : Line
deriving DecidableEq

/-- How the child's stdout ends after the listed lines.  `eof time` means
the blocking read returns end-of-stream at wall-clock `time` — the `for`
loop then simply terminates, and since the deadline check sits inside the
loop body, no check runs on that final read, whatever `time` is.  `hangs`
means the child keeps the pipe open and writes nothing more: the blocking
read never returns, and with it neither does `run_claude_streaming` — there
is no per-read timeout in the code. -/
inductive StreamEnd where
  | eof (time : ℚ)
  | hangs
deriving DecidableEq

/-- Environment of one invocation: the child's stdout stream and how it
ends, its exit code, the (already truncated) tail of stderr, whether `Popen`
raised, whether `proc.wait(timeout=10)` raised, and the start wall-clock
time. -/
structure RunEnv where
  startTime : ℚ
  stream : List TimedLine
  streamEnd : StreamEnd
  returncode : Int
  stderrTail : String
  startError : Option String
  waitError : Option String
deriving DecidableEq

/-- Classified invocation outcome (the code returns tagged strings; the
mapping to text is `outcomeText` below). -/
inductive Outcome where
  | startFail (msg : String)
  | timeout
  | process_error (code : Int) (tail : String)
  | no_output
  | success (text : String)
deriving DecidableEq

def CLAUDE_TIMEOUT : ℚ := 120

def MAX_MSG_LEN : Nat := 4000

/-- Mutable loop state of `run_claude_streaming`: `full_text`,
`new_session_id`, and the list of texts passed to `on_partial` so far. -/
structure LoopState where
  full_text : String
  new_session_id : Option String
  progress : List String
deriving DecidableEq

/-- Processing of one decoded line in the loop body: capture `session_id`
from any event, then the `assistant`/`result` branches.  `cb` tells whether
an `on_partial` callback was supplied. -/
def procLine (cb : Bool) (st : LoopState) (l : Line) : LoopState :=
  match l with
  | .junk => st
  | .event e =>
    let st1 := if e.session_id.isSome then { st with new_session_id := e.session_id } else st
    if e.etype == "assistant" && e.message.isSome then
      match e.message with
      | some part =>
        if part ≠ "" && cb then
          { st1 with full_text := part, progress := st1.progress ++ [part] }
        else st1
      | none => st1
    else if e.etype == "result" then
      { st1 with full_text := e.result.getD st1.full_text }
    else st1

/-- The `for raw_line in proc.stdout` loop.  At each line the deadline is
checked first (`time.time() > deadline`); if exceeded the process is killed
and the loop reports a timeout (second component `true`). -/
def runLoop (deadline : ℚ) (cb : Bool) : List TimedLine → LoopState → LoopState × Bool
  | [], st => (st, false)
  | tl :: rest, st =>
    if tl.time > deadline then (st, true)
    else runLoop deadline cb rest (procLine cb st tl.line)

/-- Result of an invocation: the classified outcome, whether the child was
forcibly killed, the `on_partial` call texts, and the session token written
to the `sessions` registry (none when nothing is written). -/
structure RunResult where
  outcome : Outcome
  killed : Bool
  progressCalls : List String
  sessionUpdate : Option String
deriving DecidableEq

/-- `run_claude_streaming`.  The value `none` means the call never returns:
after processing every listed line without hitting the deadline, the next
blocking read hangs on a silent child that keeps its pipe open.  Otherwise:
a `Popen` failure returns the start-failure text; a deadline hit (observed
only when a line arrives) kills the child and returns inside the loop —
before `proc.wait` and before the `sessions[chat_id] = new_session_id`
write; on end-of-stream (at whatever time, unchecked) `proc.wait(timeout=10)`
may raise (propagating out of the function, still before the registry
write); when it succeeds, a truthy `new_session_id` is persisted, then the
non-zero-exit / empty-text classification runs. -/
def run_claude_streaming (env : RunEnv) (cb : Bool) :
    Option (Except String RunResult) :=
  match env.startError with
  | some e => some (.ok ⟨.startFail e, false, [], none⟩)
  | none =>
    let deadline := env.startTime + CLAUDE_TIMEOUT
    let res := runLoop deadline cb env.stream ⟨"", none, []⟩
    if res.2 then
      some (.ok ⟨.timeout, true, res.1.progress, none⟩)
    else
      match env.streamEnd with
      | .hangs => none
      | .eof _ =>
        match env.waitError with
        | some e => some (.error e)
        | none =>
          let su := if pyTruthyStr res.1.new_session_id then res.1.new_session_id else none
          if env.returncode ≠ 0 ∧ res.1.full_text = "" then
            some (.ok ⟨.process_error env.returncode env.stderrTail, false, res.1.progress, su⟩)
          else if res.1.full_text = "" then
            some (.ok ⟨.no_output, false, res.1.progress, su⟩)
          else
            some (.ok ⟨.success res.1.full_text, false, res.1.progress, su⟩)

/-- The user-visible text of each outcome, as returned by the Python code. -/
def outcomeText : Outcome → String
  | .startFail e => "[error] Failed to start Claude: " ++ e
  | .timeout => "[timeout] Claude took too long (>120s). Try /new to reset."
  | .process_error code tail => "[error] Claude exited with code " ++ toString code ++ ".\n" ++ tail
  | .no_output => "[error] No response from Claude."
  | .success t => t

/-! Specification-side folds describing the loop state reached at stream end,
proved below to coincide with `runLoop` when no line arrives late. -/

/-- Effect of one line on `new_session_id` alone. -/
def sessStep (acc : Option String) (l : Line) : Option String :=
  match l with
  | .junk => acc
  | .event e => if e.session_id.isSome then e.session_id else acc

/-- Effect of one line on `full_text` alone. -/
def ftStep (cb : Bool) (ft : String) (l : Line) : String :=
  match l with
  | .junk => ft
  | .event e =>
    if e.etype == "assistant" && e.message.isSome then
      match e.message with
      | some part => if part ≠ "" && cb then part else ft
      | none => ft
    else if e.etype == "result" then e.result.getD ft
    else ft

/-- The `on_partial` call (if any) triggered by one line. -/
def progStep (cb : Bool) (l : Line) : Option String :=
  match l with
  | .junk => none
  | .event e =>
    if e.etype == "assistant" && e.message.isSome then
      match e.message with
      | some part => if part ≠ "" && cb then some part else none
      | none => none
    else none

/-- Last `session_id` carried by any decoded event of the stream. -/
def lastSessionId (stream : List TimedLine) : Option String :=
  stream.foldl (fun acc tl => sessStep acc tl.line) none

/-- Final text after the whole stream: last-writer-wins among `result` texts
and (when a callback is supplied) non-empty `assistant` texts. -/
def finalTextOf (cb : Bool) (stream : List TimedLine) : String :=
  stream.foldl (fun ft tl => ftStep cb ft tl.line) ""

/-- All texts passed to `on_partial`, in order. -/
def progressCallsOf (cb : Bool) (stream : List TimedLine) : List String :=
  stream.filterMap (fun tl => progStep cb tl.line)

/-! ## Edit Throttler (`on_partial` closure in `handle_message`, lines 505-519)

The closure captures `last_edit_time` / `last_edit_text` cells and the
`placeholder` message id returned by the initial send.  The decision and the
state update are embedded as a pure step function returning the decision and
the new cell contents. -/

/-- The `last_edit_time[0]` / `last_edit_text[0]` cells. -/
structure EditState where
  last_edit_time : ℚ
  last_edit_text : String
deriving DecidableEq

/-- One call of the `on_partial` closure: emit (and update the cells) only
when the elapsed time is at least 3, the text grew by more than 40
characters, the placeholder message id is truthy, and the text fits in one
Telegram message. -/
def on_partial_step (placeholder : Option Int) (st : EditState) (now : ℚ)
    (text_so_far : String) : Bool × EditState :=
  if now - st.last_edit_time ≥ 3 ∧
     (text_so_far.length : Int) - (st.last_edit_text.length : Int) > 40 ∧
     pyTruthyInt placeholder = true ∧
     text_so_far.length ≤ MAX_MSG_LEN then
    (true, ⟨now, text_so_far⟩)
  else
    (false, st)

/-! ## Health Probe (`check_gateway_health`, supervisor.py lines 334-387)

The three sub-checks read the outside world; each is an input.  `launchctl`
and `lsof` either raise (tool missing, timeout — `Except.error`) or produce
stdout.  The log read either succeeds, raises `FileNotFoundError` (the only
exception the code catches there), or raises some other error such as
`PermissionError`, which propagates out of the probe. -/

instance exceptDecEq {ε α : Type} [DecidableEq ε] [DecidableEq α] :
    DecidableEq (Except ε α) := fun a b =>
  match a, b with
  | .error x, .error y => decidable_of_iff (x = y) ⟨fun h => h ▸ rfl, fun h => by cases h; rfl⟩
  | .error _, .ok _ => .isFalse (fun h => Except.noConfusion h)
  | .ok _, .error _ => .isFalse (fun h => Except.noConfusion h)
  | .ok x, .ok y => decidable_of_iff (x = y) ⟨fun h => h ▸ rfl, fun h => by cases h; rfl⟩

/-- Result of `log_path.read_text()`. -/
inductive LogReadResult where
  | ok (content : String)
  | fileNotFound
  | otherError (msg : String)
deriving DecidableEq

/-- Inputs of one probe execution. -/
structure ProbeEnv where
  launchctl : Except String String
  lsof : Except String String
  logRead : LogReadResult
deriving DecidableEq

/-- The `launchctl` try-block of `check_gateway_health`: the contribution of
the liveness check to the healthy flag and to the summary lines.  The block
parses the first line mentioning `openclaw.gateway`; fewer than two
whitespace-separated fields would make `parts[0]`/`parts[1]` raise an
`IndexError` inside the same `try`, caught by the same `except`, which
also sets `healthy = False`. -/
def launchctlCheck (r : Except String String) : Bool × List String :=
  match r with
  | .error e => (false, ["Gateway: launchctl check failed (" ++ e ++ ")"])
  | .ok out =>
    match (out.splitOn "\n").filter (fun l => containsSubstr l "openclaw.gateway") with
    | [] => (false, ["Gateway: NOT loaded in launchctl"])
    | g0 :: _ =>
      match pySplit g0 with
      | pid :: status :: _ =>
        if pid == "-" then (false, ["Gateway: NOT running (no PID)"])
        else (true, ["Gateway: PID " ++ pid ++ " (exit status " ++ status ++ ")"])
      | _ => (false, ["Gateway: launchctl check failed (IndexError)"])

/-- The `lsof` try-block: its contribution to the healthy flag (its `except`
clause leaves `healthy` unchanged, encoded as `true` under conjunction) and
to the summary. -/
def portCheck (r : Except String String) : Bool × List String :=
  match r with
  | .error e => (true, ["Port check: failed (" ++ e ++ ")"])
  | .ok out =>
    if pyStrip out ≠ "" then (true, ["Port 18789: LISTENING"])
    else (false, ["Port 18789: NOT listening"])

/-- The log-tail try-block: the summary line it appends, or the uncaught
exception it lets escape (only `FileNotFoundError` is caught). -/
def logCheck : LogReadResult → Except String String
  | .otherError e => .error e
  | .fileNotFound => .ok "Error log not found."
  | .ok content =>
    let stripped := pyStrip content
    let ls := if stripped == "" then [] else stripped.splitOn "\n"
    let lastLines := ls.drop (ls.length - 3)
    if lastLines.isEmpty then .ok "No recent errors in log."
    else .ok ("Recent errors:\n" ++ String.intercalate "\n" lastLines)

/-- `check_gateway_health()`.  Returns `(healthy, summary)`, or raises when
the log read fails with anything other than `FileNotFoundError`.  The
sequentially mutated `healthy` variable equals the conjunction of the two
block contributions. -/
def check_gateway_health (env : ProbeEnv) : Except String (Bool × String) :=
  let p1 := launchctlCheck env.launchctl
  let p2 := portCheck env.lsof
  match logCheck env.logRead with
  | .error e => .error e
  | .ok logLine =>
    .ok (p1.1 && p2.1, String.intercalate "\n" (p1.2 ++ p2.2 ++ [logLine]))

/-- Specification-side reading of the liveness check: `none` when the check
could not be evaluated as pass/fail (tool raised, or the matched line was
unparsable), `some b` otherwise. -/
def livenessPassFail (r : Except String String) : Option Bool :=
  match r with
  | .error _ => none
  | .ok out =>
    match (out.splitOn "\n").filter (fun l => containsSubstr l "openclaw.gateway") with
    | [] => some false
    | g0 :: _ =>
      match pySplit g0 with
      | pid :: _ :: _ => some (pid ≠ "-")
      | _ => none

/-- Specification-side reading of the port check: `none` when `lsof` raised. -/
def portPassFail (r : Except String String) : Option Bool :=
  match r with
  | .error _ => none
  | .ok out => some (pyStrip out ≠ "")

/-- The healthy flag the specification describes: the AND of those of the two
checks that could be evaluated as pass/fail. -/
def specHealthy (env : ProbeEnv) : Bool :=
  (livenessPassFail env.launchctl).getD true && (portPassFail env.lsof).getD true

/-! ## Watchdog (`watchdog_loop` and `_watchdog_last_state`, lines 404-442)

One loop iteration sleeps, probes, and runs the edge-triggered alert logic;
any exception (including a probe raise) is caught and logged, making the
iteration a no-op.  An iteration's input is therefore `none` (exception) or
`some (healthy, status)`. -/

/-- The `_watchdog_last_state` record. -/
structure WatchdogState where
  healthy : Bool
  alerted : Bool
deriving DecidableEq

/-- Initial state: `{"healthy": True, "alerted": False}`. -/
def watchdogInit : WatchdogState := ⟨true, false⟩

/-- Notifications sent to the chat by the watchdog. -/
inductive WdNotice where
  | down (status : String)
  | recovered
deriving DecidableEq

/-- One iteration of `watchdog_loop` on probe input `p` (`none` = the
iteration raised and was logged as a no-op). -/
def watchdog_step (s : WatchdogState) (p : Option (Bool × String)) :
    WatchdogState × List WdNotice :=
  match p with
  | none => (s, [])
  | some (healthy, status) =>
    if !healthy && !s.alerted then (⟨false, true⟩, [.down status])
    else if healthy && !s.healthy then (⟨true, false⟩, [.recovered])
    else if healthy then (⟨s.healthy, false⟩, [])
    else (s, [])

/-- Fold of `watchdog_step` over a finite prefix of the infinite loop,
accumulating the emitted notices in order. -/
def watchdog_run (s : WatchdogState) (probes : List (Option (Bool × String))) :
    WatchdogState × List WdNotice :=
  probes.foldl (fun acc p =>
    let r := watchdog_step acc.1 p
    (r.1, acc.2 ++ r.2)) (s, [])

/-! ## Inbound handlers (`handle_message` lines 447-568, `handle_callback` lines 571-627)

Outbound Telegram calls and the other collaborator actions become an ordered
trace of effects; the global `sessions` and `last_voice_response` maps become
an explicit `BotState`.  `check_gateway_health` raising on the `/status` path
propagates out of `handle_message` (caught only by the poll loop), hence the
`Except` return type. -/

/-- One observable action of a handler. -/
inductive Effect where
  | sendMsg (chat : Int) (text : String)
  | typingAct (chat : Int)
  | editMsg (chat : Int) (msgId : Int) (text : String)
  | editReplyMarkup (chat : Int) (msgId : Int)
  | deleteMsg (chat : Int) (msgId : Int)
  | answerCallback (cbId : String)
  | invokeClaude (chat : Int) (prompt : String)
  | voiceReply (chat : Int)
  | restartGateway
deriving DecidableEq

/-- The module-level mutable maps. -/
structure BotState where
  sessions : Int → Option String
  last_voice_response : Int → Option String

/-- An inbound chat message (`msg["chat"]["id"]`, `msg["from"]["id"]`,
`msg.get("text", "")`). -/
structure Msg where
  chat_id : Int
  from_id : Int
  text : String

/-- An inline-button callback query. -/
structure Callback where
  data : String
  chat_id : Int
  from_id : Int
  cb_id : String

/-- External inputs consumed by one handler invocation: the probe inputs,
the text produced by `cmd_logs(n)`, the Claude invocation environment, the
message id returned by the placeholder send (None when that send failed),
whether the TTS pipeline is available, and whether the `launchctl kickstart`
call raised. -/
structure HandleEnv where
  probe : ProbeEnv
  logs : Nat → String
  runEnv : RunEnv
  placeholder : Option Int
  ttsOk : Bool
  restartError : Option String

/-- `do_voice_reply`: send a synthesized voice message, or the fixed notice
when the TTS pipeline is unavailable. -/
def do_voice_reply (ttsOk : Bool) (chat : Int) : List Effect :=
  if ttsOk then [.voiceReply chat]
  else [.sendMsg chat "[TTS unavailable — ffmpeg or Supertonic not set up]"]

/-- The `/help` reply text. -/
def helpText : String :=
  "/status — quick gateway health check\n/logs [N] — tail N lines of gateway logs\n/new — clear Claude session\n/voice — voice-read last response\nAnything else goes to Claude."

/-- The free-text prompt injected by the Diagnose button. -/
def diagnosePrompt : String :=
  "The gateway appears to be down. Check launchctl status, read recent error logs, check if port 18789 is in use, and tell me what's wrong and how to fix it."

/-- Effects finishing a Claude turn given the response text: edit the
placeholder in place when it exists and the response fits, otherwise delete
the placeholder (when it exists) and send the response fresh. -/
def finishClaude (chat : Int) (placeholder : Option Int) (response : String) :
    List Effect :=
  if pyTruthyInt placeholder = true ∧ response.length ≤ MAX_MSG_LEN then
    match placeholder with
    | some pid => [.editMsg chat pid response, .editReplyMarkup chat pid]
    | none => []
  else
    (match placeholder with
     | some pid => if pyTruthyInt (some pid) = true then [.deleteMsg chat pid] else []
     | none => []) ++ [.sendMsg chat response]

/-- `handle_message`.  Empty (stripped) text returns silently; an identity
other than `allowed` gets the fixed notice and nothing else; then the
built-in commands; any other text is a Claude streaming turn.  The worker
thread, the 5-second typing keepalives and the throttled progressive edits
(`on_partial_step`) are concurrency/presence plumbing that emits no
state-changing effect and is not recorded in the trace.  `none` means the
turn never completes: when the runner hangs (silent child), the worker
thread never finishes and the `while t.is_alive(): t.join(timeout=5)` loop
keeps the turn alive forever. -/
def handle_message (allowed : Int) (env : HandleEnv) (st : BotState) (msg : Msg) :
    Option (Except String (List Effect × BotState)) :=
  let chat := msg.chat_id
  let text := pyStrip msg.text
  if text == "" then some (.ok ([], st))
  else if msg.from_id ≠ allowed then some (.ok ([.sendMsg chat "Not authorized."], st))
  else
    let lower := text.toLower
    if lower == "/new" || lower == "/start" then
      some (.ok ([.sendMsg chat "Session cleared. Fresh start."],
        { st with sessions := fun c => if c = chat then none else st.sessions c }))
    else if lower == "/status" then
      match check_gateway_health env.probe with
      | .error e => some (.error e)
      | .ok (_, status) => some (.ok ([.sendMsg chat status], st))
    else if lower.startsWith "/logs" then
      let n := match pySplit text with
        | _ :: p1 :: _ => if isDigits p1 then strToNat p1 else 20
        | _ => 20
      some (.ok ([.sendMsg chat (env.logs n)], st))
    else if lower == "/help" then
      some (.ok ([.sendMsg chat helpText], st))
    else if lower == "/voice" then
      match st.last_voice_response chat with
      | some _ => some (.ok ([.typingAct chat] ++ do_voice_reply env.ttsOk chat, st))
      | none => some (.ok ([.sendMsg chat "No previous response to read aloud."], st))
    else
      match run_claude_streaming env.runEnv true with
      | none => none
      | some (.error e) =>
        let errText := "[error] " ++ e
        let fin := match env.placeholder with
          | some pid =>
            if pyTruthyInt (some pid) = true then [Effect.editMsg chat pid errText]
            else [Effect.sendMsg chat errText]
          | none => [Effect.sendMsg chat errText]
        some (.ok ([.typingAct chat, .sendMsg chat "...", .invokeClaude chat text] ++ fin, st))
      | some (.ok r) =>
        let sessions2 : Int → Option String := match r.sessionUpdate with
          | some tok => fun c => if c = chat then some tok else st.sessions c
          | none => st.sessions
        let response := outcomeText r.outcome
        some (.ok ([.typingAct chat, .sendMsg chat "...", .invokeClaude chat text] ++
               finishClaude chat env.placeholder response,
             { sessions := sessions2,
               last_voice_response := fun c =>
                 if c = chat then some response else st.last_voice_response c }))

/-- `handle_callback`.  The callback query is acknowledged first, before the
identity check; an identity other than `allowed` then returns without
further action.  `none` (possible only through the Diagnose path, which runs
a full Claude turn) means the turn never completes. -/
def handle_callback (allowed : Int) (env : HandleEnv) (st : BotState) (cb : Callback) :
    Option (Except String (List Effect × BotState)) :=
  let ack := [Effect.answerCallback cb.cb_id]
  if cb.from_id ≠ allowed then some (.ok (ack, st))
  else if cb.data == "action:status" then
    match check_gateway_health env.probe with
    | .error e => some (.error e)
    | .ok (_, status) => some (.ok (ack ++ [.sendMsg cb.chat_id status], st))
  else if cb.data == "action:logs" then
    some (.ok (ack ++ [.sendMsg cb.chat_id (env.logs 20)], st))
  else if cb.data == "action:restart" then
    let pre := ack ++ [Effect.typingAct cb.chat_id]
    match env.restartError with
    | some e =>
      some (.ok (pre ++ [.sendMsg cb.chat_id ("[error] Restart failed: " ++ e)], st))
    | none =>
      match check_gateway_health env.probe with
      | .error e =>
        some (.ok (pre ++ [.restartGateway,
              .sendMsg cb.chat_id ("[error] Restart failed: " ++ e)], st))
      | .ok (healthy, status) =>
        some (.ok (pre ++ [.restartGateway,
              .sendMsg cb.chat_id
                ("[" ++ (if healthy then "OK" else "WARN") ++ "] Restart issued.\n\n" ++ status)], st))
  else if cb.data == "action:new" then
    some (.ok (ack ++ [.sendMsg cb.chat_id "Session cleared."],
      { st with sessions := fun c => if c = cb.chat_id then none else st.sessions c }))
  else if cb.data == "action:voice" then
    match st.last_voice_response cb.chat_id with
    | some _ =>
      some (.ok (ack ++ [.typingAct cb.chat_id] ++ do_voice_reply env.ttsOk cb.chat_id, st))
    | none => some (.ok (ack ++ [.sendMsg cb.chat_id "No previous response to read aloud."], st))
  else if cb.data == "action:diagnose" then
    match handle_message allowed env st ⟨cb.chat_id, cb.from_id, diagnosePrompt⟩ with
    | none => none
    | some (.error e) => some (.error e)
    | some (.ok (effs, st2)) => some (.ok (ack ++ [.typingAct cb.chat_id] ++ effs, st2))
  else some (.ok (ack, st))

/-! ## Concrete fixtures used by counterexamples and witnesses -/

/-- A 50-character candidate text for the throttler. -/
def throttleText : String := String.mk (List.replicate 50 'a')

/-- A run whose first event carries a session token and whose next line
arrives after the deadline (start time 0, deadline 120); the child itself
never exits. -/
def envSessionThenLate : RunEnv :=
  ⟨0, [⟨0, .event ⟨"system", none, none, some "s1"⟩⟩, ⟨130, .junk⟩], .hangs, 0, "", none, none⟩

/-- A child that never exits and never emits a `result`: assistant events
keep arriving, the second one past the deadline. -/
def envNeverResult : RunEnv :=
  ⟨0, [⟨50, .event ⟨"assistant", some "x", none, none⟩⟩,
       ⟨130, .event ⟨"assistant", some "y", none, none⟩⟩], .hangs, 0, "", none, none⟩

/-- A single in-deadline event carrying a session token, then a clean exit. -/
def envSessionOnly : RunEnv :=
  ⟨0, [⟨0, .event ⟨"system", none, none, some "s1"⟩⟩], .eof 1, 0, "", none, none⟩

/-- A `result` event carrying text, followed by an `assistant` progress
event — the stream order the claim does not anticipate. -/
def envResultThenAssistant : RunEnv :=
  ⟨0, [⟨1, .event ⟨"result", none, some "A", none⟩⟩,
       ⟨2, .event ⟨"assistant", some "B", none, none⟩⟩], .eof 3, 0, "", none, none⟩

/-- The mocked stream of the specification's Process Runner test. -/
def envMock : RunEnv :=
  ⟨0, [⟨1, .event ⟨"assistant", some "He", none, none⟩⟩,
       ⟨2, .event ⟨"assistant", some "Hello", none, none⟩⟩,
       ⟨3, .event ⟨"result", none, some "Hello!", some "s1"⟩⟩], .eof 4, 0, "", none, none⟩

/-- A child that stays silent with its pipe open: no lines ever arrive and
end-of-stream never comes, so the blocking read never returns. -/
def envSilentHang : RunEnv := ⟨0, [], .hangs, 0, "", none, none⟩

/-- A child whose single line arrives well within the deadline but which
holds the pipe open past the deadline and only reaches end-of-stream at
time 1000. -/
def envLateEof : RunEnv :=
  ⟨0, [⟨1, .event ⟨"result", none, some "x", none⟩⟩], .eof 1000, 0, "", none, none⟩

/-- Probe inputs where `launchctl` itself raises while the port check
evaluates to a pass and the log is readable but empty. -/
def probeEnvToolFail : ProbeEnv := ⟨.error "boom", .ok "x", .ok ""⟩

/-- Probe inputs for the amended-claim witness: gateway loaded with a PID,
port listening, log file missing. -/
def probeEnvOk : ProbeEnv :=
  ⟨.ok "123 0 ai.openclaw.gateway", .ok "node 123", .fileNotFound⟩

/-- A bot state with no sessions and no stored voice response. -/
def stEmpty : BotState := ⟨fun _ => none, fun _ => none⟩

/-- A concrete handler environment for closed instances. -/
def envHandler : HandleEnv :=
  ⟨probeEnvOk, fun _ => "", ⟨0, [], .eof 0, 0, "", none, none⟩, none, false, none⟩
/-! ## Theorems -/

/-- Invariant of the watchdog state machine. -/
def WdInv (s : WatchdogState) : Prop := s.alerted = true → s.healthy = false

theorem watchdog_step_inv {s : WatchdogState} (h : WdInv s) (p : Option (Bool × String)) :
    WdInv (watchdog_step s p).1 := by
  rcases p with _ | ⟨hb, status⟩
  · exact h
  · rcases s with ⟨sh, sa⟩
    cases hb <;> cases sh <;> cases sa <;>
      simp_all [watchdog_step, WdInv]

theorem watchdog_step_healthy_clears {s : WatchdogState} (h : WdInv s)
    (p : Option (Bool × String)) (hh : (watchdog_step s p).1.healthy = true) :
    (watchdog_step s p).1.alerted = false := by
  rcases p with _ | ⟨hb, status⟩
  · simp [watchdog_step] at hh ⊢
    exact by_contra fun hc => by simp_all [WdInv]
  · rcases s with ⟨sh, sa⟩
    cases hb <;> cases sh <;> cases sa <;>
      simp_all [watchdog_step, WdInv]

theorem watchdog_run_fst (probes : List (Option (Bool × String))) :
    ∀ (s : WatchdogState) (evs : List WdNotice),
      (probes.foldl (fun acc p =>
        let r := watchdog_step acc.1 p
        (r.1, acc.2 ++ r.2)) (s, evs)).1 =
      probes.foldl (fun st p => (watchdog_step st p).1) s := by
  induction probes with
  | nil => intro s evs; rfl
  | cons p ps ih => intro s evs; exact ih _ _

theorem watchdog_foldl_inv (probes : List (Option (Bool × String))) :
    ∀ s : WatchdogState, WdInv s →
      WdInv (probes.foldl (fun st p => (watchdog_step st p).1) s) := by
  induction probes with
  | nil => intro s h; exact h
  | cons p ps ih => intro s h; exact ih _ (watchdog_step_inv h p)

/-- C9: in every reachable watchdog state, `alerted` implies not healthy,
and one further step to a healthy state has `alerted` cleared. -/
theorem watchdog_alert_invariant (probes : List (Option (Bool × String))) :
    ((watchdog_run watchdogInit probes).1.alerted = true →
      (watchdog_run watchdogInit probes).1.healthy = false) ∧
    ∀ p, (watchdog_step (watchdog_run watchdogInit probes).1 p).1.healthy = true →
      (watchdog_step (watchdog_run watchdogInit probes).1 p).1.alerted = false := by
  have hrun : (watchdog_run watchdogInit probes).1 =
      probes.foldl (fun st p => (watchdog_step st p).1) watchdogInit :=
    watchdog_run_fst probes watchdogInit []
  have hinv : WdInv (watchdog_run watchdogInit probes).1 := by
    rw [hrun]
    exact watchdog_foldl_inv probes watchdogInit (fun h => by cases h)
  exact ⟨hinv, fun p => watchdog_step_healthy_clears hinv p⟩

/-- C9 witness: one unhealthy probe reaches the alerted state, and a healthy
probe from there clears the alert. -/
theorem watchdog_alert_invariant_witness :
    (watchdog_run watchdogInit [some (false, "s")]).1.healthy = false ∧
    (watchdog_step (watchdog_run watchdogInit [some (false, "s")]).1 (some (true, "ok"))).1.alerted = false :=
  ⟨(watchdog_alert_invariant [some (false, "s")]).1 (by decide),
   (watchdog_alert_invariant [some (false, "s")]).2 (some (true, "ok")) (by decide)⟩

/-- C3: the probe sequence healthy, unhealthy, unhealthy, healthy emits
exactly one down alert and then one recovered notice. -/
theorem watchdog_edge_sequence :
    (watchdog_run watchdogInit
      [some (true, "ok"), some (false, "d1"), some (false, "d2"), some (true, "ok")]).2 =
    [WdNotice.down "d1", WdNotice.recovered] := by decide

/-- C8 counterexample: with no placeholder message the three stated
conditions all hold and yet no emission happens. -/
theorem on_partial_counterexample :
    (on_partial_step none ⟨0, ""⟩ 5 throttleText).1 = false ∧
    (5 : ℚ) - (0 : ℚ) ≥ 3 ∧
    (throttleText.length : Int) - (("" : String).length : Int) > 40 ∧
    throttleText.length ≤ MAX_MSG_LEN := by
  refine ⟨?_, by norm_num, by decide, by decide⟩
  simp [on_partial_step, pyTruthyInt]

/-- C8 amended: when a placeholder message exists the decision is exactly
the conjunction of the three conditions, and the cells update only on a
positive decision. -/
theorem on_partial_spec (p : Option Int) (st : EditState) (now : ℚ) (text : String)
    (hp : pyTruthyInt p = true) :
    ((on_partial_step p st now text).1 = true ↔
      (now - st.last_edit_time ≥ 3 ∧
       (text.length : Int) - (st.last_edit_text.length : Int) > 40 ∧
       text.length ≤ MAX_MSG_LEN)) ∧
    (on_partial_step p st now text).2 =
      (if (on_partial_step p st now text).1 = true then ⟨now, text⟩ else st) := by
  by_cases h : (now - st.last_edit_time ≥ 3 ∧
      (text.length : Int) - (st.last_edit_text.length : Int) > 40 ∧
      pyTruthyInt p = true ∧ text.length ≤ MAX_MSG_LEN)
  · have h1 : on_partial_step p st now text = (true, ⟨now, text⟩) := by
      simp only [on_partial_step, if_pos h]
    rw [h1]
    exact ⟨⟨fun _ => ⟨h.1, h.2.1, h.2.2.2⟩, fun _ => rfl⟩, by simp⟩
  · have h1 : on_partial_step p st now text = (false, st) := by
      simp only [on_partial_step, if_neg h]
    rw [h1]
    refine ⟨⟨fun hf => absurd hf (by simp), fun hs => absurd ⟨hs.1, hs.2.1, hp, hs.2.2⟩ h⟩, by simp⟩

/-- C8 witness: with a placeholder present, elapsed 5, growth 50 and a
small text, the decision and update follow the rule. -/
theorem on_partial_spec_witness :
    pyTruthyInt (some 1) = true ∧
    (((on_partial_step (some 1) ⟨0, ""⟩ 5 throttleText).1 = true ↔
      ((5 : ℚ) - (0 : ℚ) ≥ 3 ∧
       (throttleText.length : Int) - (("" : String).length : Int) > 40 ∧
       throttleText.length ≤ MAX_MSG_LEN)) ∧
     (on_partial_step (some 1) ⟨0, ""⟩ 5 throttleText).2 =
      (if (on_partial_step (some 1) ⟨0, ""⟩ 5 throttleText).1 = true
       then ⟨5, throttleText⟩ else ⟨0, ""⟩)) :=
  ⟨by decide, on_partial_spec (some 1) ⟨0, ""⟩ 5 throttleText (by decide)⟩

theorem launchctl_healthy (r : Except String String) :
    (launchctlCheck r).1 = (livenessPassFail r).getD false := by
  rcases r with e | out
  · rfl
  · simp only [launchctlCheck, livenessPassFail]
    rcases hgw : (out.splitOn "\n").filter (fun l => containsSubstr l "openclaw.gateway") with
      _ | ⟨g0, gs⟩
    · rfl
    · rcases hps : pySplit g0 with _ | ⟨pid, _ | ⟨status, rest2⟩⟩
      · simp [hps]
      · simp [hps]
      · by_cases hpid : pid = "-" <;> simp [hps, hpid]

theorem port_healthy (r : Except String String) :
    (portCheck r).1 = (portPassFail r).getD true := by
  rcases r with e | out
  · rfl
  · simp only [portCheck, portPassFail]
    by_cases h : pyStrip out ≠ "" <;> simp [h]

/-- C7 amended: whenever the log read does not raise a non-FileNotFound
error, the probe returns a verdict whose healthy flag is the launchctl
contribution (false when that check failed to execute) AND the port
contribution (unchanged, i.e. true, when that check failed to execute). -/
theorem check_gateway_health_graceful (env : ProbeEnv)
    (h : ∀ e, env.logRead ≠ LogReadResult.otherError e) :
    ∃ b s, check_gateway_health env = .ok (b, s) ∧
      b = ((livenessPassFail env.launchctl).getD false &&
           (portPassFail env.lsof).getD true) := by
  obtain ⟨lc, lf, lr⟩ := env
  have hlog : ∃ line, logCheck lr = .ok line := by
    cases lr with
    | ok content =>
      simp only [logCheck]
      split_ifs <;> exact ⟨_, rfl⟩
    | fileNotFound => exact ⟨_, rfl⟩
    | otherError e => exact absurd rfl (h e)
  obtain ⟨line, hline⟩ := hlog
  exact ⟨(launchctlCheck lc).1 && (portCheck lf).1,
         String.intercalate "\n" ((launchctlCheck lc).2 ++ (portCheck lf).2 ++ [line]),
         by simp only [check_gateway_health, hline],
         by rw [launchctl_healthy, port_healthy]⟩

/-- C7 counterexample: when `launchctl` itself raises and the port check
passes, the claimed flag (AND of the checks evaluable as pass/fail) is true
while the code returns healthy = false. -/
theorem check_gateway_health_counterexample :
    check_gateway_health probeEnvToolFail =
      .ok (false,
        "Gateway: launchctl check failed (boom)\nPort 18789: LISTENING\nNo recent errors in log.") ∧
    specHealthy probeEnvToolFail = true := by
  exact ⟨by decide, by decide⟩

/-- C7 witness: a loaded gateway with a listening port and a missing log
file yields a healthy verdict. -/
theorem check_gateway_health_graceful_witness :
    (∀ e, probeEnvOk.logRead ≠ LogReadResult.otherError e) ∧
    (∃ b s, check_gateway_health probeEnvOk = .ok (b, s) ∧
      b = ((livenessPassFail probeEnvOk.launchctl).getD false &&
           (portPassFail probeEnvOk.lsof).getD true)) :=
  ⟨(fun _e hh => LogReadResult.noConfusion hh),
   check_gateway_health_graceful probeEnvOk (fun _e hh => LogReadResult.noConfusion hh)⟩

theorem procLine_new_session_id (cb : Bool) (st : LoopState) (l : Line) :
    (procLine cb st l).new_session_id = sessStep st.new_session_id l := by
  rcases l with _ | ⟨ty, m, r, sid⟩
  · rfl
  · rcases sid with _ | s <;> rcases m with _ | part <;>
      simp [procLine, sessStep] <;> split_ifs <;> rfl

theorem procLine_full_text (cb : Bool) (st : LoopState) (l : Line) :
    (procLine cb st l).full_text = ftStep cb st.full_text l := by
  rcases l with _ | ⟨ty, m, r, sid⟩
  · rfl
  · rcases sid with _ | s <;> rcases m with _ | part <;>
      simp [procLine, ftStep] <;> split_ifs <;> rfl

theorem procLine_progress (cb : Bool) (st : LoopState) (l : Line) :
    (procLine cb st l).progress = st.progress ++ (progStep cb l).toList := by
  rcases l with _ | ⟨ty, m, r, sid⟩
  · simp [procLine, progStep]
  · rcases sid with _ | s <;> rcases m with _ | part <;>
      simp [procLine, progStep] <;> split_ifs <;> simp

theorem runLoop_complete (deadline : ℚ) (cb : Bool) :
    ∀ (stream : List TimedLine) (st : LoopState),
      (∀ tl ∈ stream, tl.time ≤ deadline) →
      runLoop deadline cb stream st =
        (⟨stream.foldl (fun ft tl => ftStep cb ft tl.line) st.full_text,
          stream.foldl (fun acc tl => sessStep acc tl.line) st.new_session_id,
          st.progress ++ stream.filterMap (fun tl => progStep cb tl.line)⟩, false) := by
  intro stream
  induction stream with
  | nil => intro st h; simp [runLoop]
  | cons tl rest ih =>
    intro st h
    have hne : ¬ tl.time > deadline := not_lt.2 (h tl (List.mem_cons_self tl rest))
    rw [runLoop, if_neg hne, ih (procLine cb st tl.line) (fun x hx => h x (List.mem_cons_of_mem tl hx))]
    simp only [List.foldl_cons, List.filterMap_cons]
    rw [procLine_full_text, procLine_new_session_id]
    cases hp : progStep cb tl.line with
    | none => simp [procLine_progress, hp]
    | some v => simp [procLine_progress, hp]

theorem runLoop_timedOut (deadline : ℚ) (cb : Bool) :
    ∀ (stream : List TimedLine) (st : LoopState),
      (∃ tl ∈ stream, deadline < tl.time) →
      (runLoop deadline cb stream st).2 = true := by
  intro stream
  induction stream with
  | nil => rintro st ⟨tl, htl, _⟩; cases htl
  | cons a rest ih =>
    rintro st ⟨tl, htl, hlt⟩
    rw [runLoop]
    by_cases ha : a.time > deadline
    · rw [if_pos ha]
    · rw [if_neg ha]
      rcases List.mem_cons.1 htl with rfl | hmem
      · exact absurd hlt ha
      · exact ih _ ⟨tl, hmem, hlt⟩

/-- C2 amended: the deadline is enforced only at event boundaries — whenever
some stdout line is observed after the wall-clock deadline, the child is
forcibly killed and the run classified timeout, wherever in the stream that
line occurs; but no check runs while a read is blocked or on the final
end-of-stream read (see the counterexample). -/
theorem run_timeout_enforced (env : RunEnv) (cb : Bool)
    (h0 : env.startError = none)
    (h1 : ∃ tl ∈ env.stream, env.startTime + CLAUDE_TIMEOUT < tl.time) :
    ∃ r, run_claude_streaming env cb = some (.ok r) ∧
      r.outcome = .timeout ∧ r.killed = true ∧ r.sessionUpdate = none := by
  obtain ⟨startT, stream, send, rc, tail, se, we⟩ := env
  cases h0
  have ht := runLoop_timedOut (startT + CLAUDE_TIMEOUT) cb stream ⟨"", none, []⟩ h1
  have heq : run_claude_streaming ⟨startT, stream, send, rc, tail, none, we⟩ cb =
      some (.ok ⟨.timeout, true,
        (runLoop (startT + CLAUDE_TIMEOUT) cb stream ⟨"", none, []⟩).1.progress, none⟩) := by
    simp only [run_claude_streaming, ht, if_true]
  exact ⟨_, heq, rfl, rfl, rfl⟩

theorem run_complete_characterization (env : RunEnv) (cb : Bool)
    (h0 : env.startError = none) (hw : env.waitError = none)
    (he : env.streamEnd ≠ StreamEnd.hangs)
    (h1 : ∀ tl ∈ env.stream, tl.time ≤ env.startTime + CLAUDE_TIMEOUT) :
    run_claude_streaming env cb = some (.ok
      ⟨(if env.returncode ≠ 0 ∧ finalTextOf cb env.stream = ""
        then .process_error env.returncode env.stderrTail
        else if finalTextOf cb env.stream = "" then .no_output
        else .success (finalTextOf cb env.stream)),
       false,
       progressCallsOf cb env.stream,
       (if pyTruthyStr (lastSessionId env.stream) = true
        then lastSessionId env.stream else none)⟩) := by
  obtain ⟨startT, stream, send, rc, tail, se, we⟩ := env
  cases h0; cases hw
  cases send with
  | hangs => exact absurd rfl he
  | eof t =>
    have hc := runLoop_complete (startT + CLAUDE_TIMEOUT) cb stream ⟨"", none, []⟩ h1
    unfold finalTextOf progressCallsOf lastSessionId
    simp only [run_claude_streaming, hc]
    split_ifs <;> first | rfl | contradiction

/-- C1 amended: a mid-stream session token (with the last observed one
non-empty) is persisted for every run that starts, observes every line
before the deadline, reaches end-of-stream and waits successfully — i.e.
for the success, process_error and no_output classifications; the timeout
early return skips the persistence (see the counterexample). -/
theorem run_session_persisted (env : RunEnv) (cb : Bool)
    (h0 : env.startError = none) (hw : env.waitError = none)
    (he : env.streamEnd ≠ StreamEnd.hangs)
    (h1 : ∀ tl ∈ env.stream, tl.time ≤ env.startTime + CLAUDE_TIMEOUT)
    (h2 : pyTruthyStr (lastSessionId env.stream) = true) :
    ∃ r, run_claude_streaming env cb = some (.ok r) ∧
      r.sessionUpdate = lastSessionId env.stream ∧
      (r.outcome = .process_error env.returncode env.stderrTail ∨
       r.outcome = .no_output ∨ ∃ t, r.outcome = .success t) := by
  refine ⟨_, run_complete_characterization env cb h0 hw he h1, ?_, ?_⟩
  · simp [h2]
  · dsimp only
    split_ifs with hA hB
    · exact Or.inl rfl
    · exact Or.inr (Or.inl rfl)
    · exact Or.inr (Or.inr ⟨_, rfl⟩)

/-- C1 counterexample: the first event carries session token s1, the next
line arrives past the deadline; the run is classified timeout and nothing is
written to the registry. -/
theorem run_session_lost_on_timeout :
    run_claude_streaming envSessionThenLate true = some (.ok ⟨.timeout, true, [], none⟩) ∧
    lastSessionId envSessionThenLate.stream = some "s1" :=
  ⟨by norm_num [run_claude_streaming, envSessionThenLate, runLoop, procLine, CLAUDE_TIMEOUT],
   by decide⟩

/-- C1 witness: a single in-deadline event carrying token s1 is persisted. -/
theorem run_session_persisted_witness :
    envSessionOnly.startError = none ∧ envSessionOnly.waitError = none ∧
    envSessionOnly.streamEnd ≠ StreamEnd.hangs ∧
    (∀ tl ∈ envSessionOnly.stream, tl.time ≤ envSessionOnly.startTime + CLAUDE_TIMEOUT) ∧
    pyTruthyStr (lastSessionId envSessionOnly.stream) = true ∧
    (∃ r, run_claude_streaming envSessionOnly false = some (.ok r) ∧
      r.sessionUpdate = lastSessionId envSessionOnly.stream ∧
      (r.outcome = .process_error envSessionOnly.returncode envSessionOnly.stderrTail ∨
       r.outcome = .no_output ∨ ∃ t, r.outcome = .success t)) :=
  ⟨rfl, rfl, (by decide),
   (by
     intro tl htl
     simp only [envSessionOnly, List.mem_cons, List.not_mem_nil, or_false] at htl
     rcases htl with rfl
     norm_num [CLAUDE_TIMEOUT, envSessionOnly]),
   (by decide),
   run_session_persisted envSessionOnly false rfl rfl (by decide)
     (by
       intro tl htl
       simp only [envSessionOnly, List.mem_cons, List.not_mem_nil, or_false] at htl
       rcases htl with rfl
       norm_num [CLAUDE_TIMEOUT, envSessionOnly])
     (by decide)⟩

/-- C4 amended: for a run that starts, observes every line within the
deadline, reaches end-of-stream, waits successfully and exits 0, the final
text is the last-writer-wins fold over text-bearing events (result texts
always; non-empty assistant texts when a callback is supplied); empty means
no_output; the progress calls and the registry write are the corresponding
folds. -/
theorem run_final_text_rule (env : RunEnv) (cb : Bool)
    (h0 : env.startError = none) (hw : env.waitError = none)
    (he : env.streamEnd ≠ StreamEnd.hangs)
    (h1 : ∀ tl ∈ env.stream, tl.time ≤ env.startTime + CLAUDE_TIMEOUT)
    (hrc : env.returncode = 0) :
    ∃ r, run_claude_streaming env cb = some (.ok r) ∧
      r.outcome = (if finalTextOf cb env.stream = "" then .no_output
                   else .success (finalTextOf cb env.stream)) ∧
      r.progressCalls = progressCallsOf cb env.stream ∧
      r.sessionUpdate = (if pyTruthyStr (lastSessionId env.stream) = true
                         then lastSessionId env.stream else none) := by
  refine ⟨_, run_complete_characterization env cb h0 hw he h1, ?_, rfl, rfl⟩
  dsimp only
  rw [if_neg (by simp [hrc])]

/-- C4 counterexample: a result event with text A followed by an assistant
progress event B makes the returned final text B, not the result text A. -/
theorem run_result_not_authoritative :
    run_claude_streaming envResultThenAssistant true =
      some (.ok ⟨.success "B", false, ["B"], none⟩) ∧ ("B" : String) ≠ "A" :=
  ⟨(by
     norm_num [run_claude_streaming, envResultThenAssistant, runLoop, procLine,
       CLAUDE_TIMEOUT, pyTruthyStr]
     decide),
   (by decide)⟩

/-- C4 witness: the specification's mocked stream yields final text Hello!,
progress calls He then Hello, and registry token s1. -/
theorem run_final_text_rule_witness :
    envMock.startError = none ∧ envMock.waitError = none ∧
    envMock.streamEnd ≠ StreamEnd.hangs ∧
    (∀ tl ∈ envMock.stream, tl.time ≤ envMock.startTime + CLAUDE_TIMEOUT) ∧
    envMock.returncode = 0 ∧
    (∃ r, run_claude_streaming envMock true = some (.ok r) ∧
      r.outcome = (if finalTextOf true envMock.stream = "" then .no_output
                   else .success (finalTextOf true envMock.stream)) ∧
      r.progressCalls = progressCallsOf true envMock.stream ∧
      r.sessionUpdate = (if pyTruthyStr (lastSessionId envMock.stream) = true
                         then lastSessionId envMock.stream else none)) ∧
    finalTextOf true envMock.stream = "Hello!" ∧
    progressCallsOf true envMock.stream = ["He", "Hello"] ∧
    lastSessionId envMock.stream = some "s1" :=
  ⟨rfl, rfl, (by decide),
   (by
     intro tl htl
     simp only [envMock, List.mem_cons, List.not_mem_nil, or_false] at htl
     rcases htl with rfl | rfl | rfl <;> norm_num [CLAUDE_TIMEOUT, envMock]),
   rfl,
   run_final_text_rule envMock true rfl rfl (by decide)
     (by
       intro tl htl
       simp only [envMock, List.mem_cons, List.not_mem_nil, or_false] at htl
       rcases htl with rfl | rfl | rfl <;> norm_num [CLAUDE_TIMEOUT, envMock])
     rfl,
   (by decide), (by decide), (by decide)⟩

/-- C2 counterexample: the deadline is not enforced while a read is blocked.
A silent child that holds its pipe open makes the runner hang forever — the
call never returns, no kill, no timeout — although the stream is still being
read when the deadline expires; and a child whose one line arrives in time
but whose end-of-stream only comes at time 1000, far past the deadline, is
classified as a normal success with the child never killed. -/
theorem run_deadline_unchecked_when_blocked :
    run_claude_streaming envSilentHang true = none ∧
    run_claude_streaming envLateEof true = some (.ok ⟨.success "x", false, [], none⟩) ∧
    envLateEof.streamEnd = StreamEnd.eof 1000 ∧
    envLateEof.startTime + CLAUDE_TIMEOUT < 1000 :=
  ⟨rfl,
   (by
     norm_num [run_claude_streaming, envLateEof, runLoop, procLine,
       CLAUDE_TIMEOUT, pyTruthyStr]
     decide),
   rfl,
   (by norm_num [envLateEof, CLAUDE_TIMEOUT])⟩

/-- C2 witness: a mocked child that keeps emitting assistant events, never a
result, with the second event past the deadline (and which would otherwise
hold its pipe open forever). -/
theorem run_timeout_enforced_witness :
    envNeverResult.startError = none ∧
    (∃ tl ∈ envNeverResult.stream, envNeverResult.startTime + CLAUDE_TIMEOUT < tl.time) ∧
    (∃ r, run_claude_streaming envNeverResult true = some (.ok r) ∧
      r.outcome = .timeout ∧ r.killed = true ∧ r.sessionUpdate = none) :=
  ⟨rfl,
   ⟨⟨130, .event ⟨"assistant", some "y", none, none⟩⟩, (by decide),
    (by norm_num [envNeverResult, CLAUDE_TIMEOUT])⟩,
   run_timeout_enforced envNeverResult true rfl
     ⟨⟨130, .event ⟨"assistant", some "y", none, none⟩⟩, (by decide),
      (by norm_num [envNeverResult, CLAUDE_TIMEOUT])⟩⟩

theorem lastIdxOfAux_bound (c : Char) : ∀ (l : List Char) (i : Nat) (best : Int),
    lastIdxOfAux c l i best < (i : Int) + l.length ∨ lastIdxOfAux c l i best = best := by
  intro l
  induction l with
  | nil => intro i best; right; rfl
  | cons ch rest ih =>
    intro i best
    simp only [lastIdxOfAux]
    rcases ih (i + 1) (if ch = c then (i : Int) else best) with h | h
    · left
      simp only [List.length_cons]
      push_cast
      push_cast at h
      omega
    · rw [h]
      split_ifs with hc
      · left; simp only [List.length_cons]; push_cast; omega
      · right; rfl

theorem pyRfind_lt_or_neg (s : List Char) (c : Char) (stop : Nat) :
    pyRfind s c stop < (stop : Int) ∨ pyRfind s c stop = -1 := by
  rcases lastIdxOfAux_bound c (s.take stop) 0 (-1) with h | h
  · left
    have hlen : (s.take stop).length ≤ stop := by
      rw [List.length_take]; omega
    unfold pyRfind
    push_cast at h ⊢
    omega
  · right; exact h

theorem chunkCut_eq (text : List Char) (limit : Nat) :
    chunkCut text limit =
      (if (if pyRfind text '\n' limit < ((limit / 2 : Nat) : Int)
           then pyRfind text ' ' limit else pyRfind text '\n' limit) < ((limit / 4 : Nat) : Int)
       then (limit : Int)
       else (if pyRfind text '\n' limit < ((limit / 2 : Nat) : Int)
             then pyRfind text ' ' limit else pyRfind text '\n' limit)) := rfl

theorem chunkCut_le (text : List Char) (limit : Nat) :
    (chunkCut text limit).toNat ≤ limit := by
  rw [chunkCut_eq]
  set cut2 := if pyRfind text '\n' limit < ((limit / 2 : Nat) : Int)
      then pyRfind text ' ' limit else pyRfind text '\n' limit with hc2
  split_ifs with h
  · omega
  · push_neg at h
    have hnn : (0 : Int) ≤ cut2 := le_trans (by positivity) h
    have h2 : cut2 < (limit : Int) := by
      rw [hc2]
      rw [hc2] at hnn
      split_ifs with hsp
      · rcases pyRfind_lt_or_neg text ' ' limit with hlt | hneg
        · exact hlt
        · rw [if_pos hsp] at hnn; omega
      · rcases pyRfind_lt_or_neg text '\n' limit with hlt | hneg
        · exact hlt
        · rw [if_neg hsp] at hnn; omega
    omega

theorem chunkCut_pos (text : List Char) (limit : Nat) (h4 : 4 ≤ limit) :
    1 ≤ (chunkCut text limit).toNat := by
  rw [chunkCut_eq]
  set cut2 := if pyRfind text '\n' limit < ((limit / 2 : Nat) : Int)
      then pyRfind text ' ' limit else pyRfind text '\n' limit with hc2
  split_ifs with h
  · omega
  · push_neg at h
    have h1 : ((limit / 4 : Nat) : Int) ≥ 1 := by
      have := Nat.one_le_div_iff (show 0 < 4 by omega) |>.2 h4
      omega
    omega

theorem chunkLoop_spec (limit : Nat) : ∀ (fuel : Nat) (text : List Char)
    (ps : List (List Char × List Char)),
    chunkLoop limit fuel text = some ps →
    joinPairs ps = text ∧
    (∀ p ∈ ps, p.1.length ≤ limit) ∧
    (∀ p ∈ ps, ∀ ch ∈ p.2, ch = '\n') := by
  intro fuel
  induction fuel with
  | zero => intro text ps h; simp [chunkLoop] at h
  | succ fuel ih =>
    intro text ps h
    rw [chunkLoop] at h
    by_cases he : text.isEmpty
    · rw [if_pos he] at h
      cases h
      refine ⟨?_, by simp, by simp⟩
      simp only [joinPairs, List.foldr_nil]
      exact (List.isEmpty_iff.1 he).symm
    · rw [if_neg he] at h
      by_cases hle : text.length ≤ limit
      · rw [if_pos hle] at h
        cases h
        refine ⟨?_, ?_, ?_⟩
        · simp [joinPairs]
        · intro p hp
          rcases List.mem_singleton.1 hp with rfl
          exact hle
        · intro p hp
          rcases List.mem_singleton.1 hp with rfl
          intro ch hch
          simp at hch
      · rw [if_neg hle] at h
        cases hrec : chunkLoop limit fuel
            ((text.drop (chunkCut text limit).toNat).dropWhile (fun ch => ch == '\n')) with
        | none => rw [hrec] at h; cases h
        | some tl =>
          rw [hrec] at h
          cases h
          obtain ⟨hjoin, hlen, hnl⟩ := ih _ _ hrec
          refine ⟨?_, ?_, ?_⟩
          · simp only [joinPairs, List.foldr_cons]
            simp only [joinPairs] at hjoin
            rw [hjoin, List.append_assoc, List.takeWhile_append_dropWhile, List.take_append_drop]
          · intro p hp
            rcases List.mem_cons.1 hp with rfl | hp2
            · have := chunkCut_le text limit
              simp only [List.length_take]
              omega
            · exact hlen p hp2
          · intro p hp
            rcases List.mem_cons.1 hp with rfl | hp2
            · intro ch hch
              have := List.mem_takeWhile_imp hch
              simpa using this
            · exact hnl p hp2

/-- C5: whenever the loop returns, every chunk is at most `limit` long and
the chunks, interleaved with the newline runs stripped at each cut,
concatenate back to the original text. -/
theorem chunk_text_correct (fuel : Nat) (text : List Char) (limit : Nat)
    (cs : List (List Char)) (_hlim : 1 ≤ limit)
    (h : chunk_text fuel text limit = some cs) :
    (∀ c ∈ cs, c.length ≤ limit) ∧
    ∃ ps : List (List Char × List Char),
      cs = ps.map Prod.fst ∧ joinPairs ps = text ∧
      ∀ p ∈ ps, ∀ ch ∈ p.2, ch = '\n' := by
  unfold chunk_text at h
  split_ifs at h with hle
  · cases h
    refine ⟨?_, [(text, [])], rfl, by simp only [joinPairs, List.foldr_cons, List.foldr_nil, List.append_nil], ?_⟩
    · intro c hc
      rcases List.mem_singleton.1 hc with rfl
      exact hle
    · intro p hp
      rcases List.mem_singleton.1 hp with rfl
      intro ch hch
      cases hch
  · cases hrec : chunkLoop limit fuel text with
    | none => rw [hrec] at h; cases h
    | some ps =>
      rw [hrec] at h
      obtain ⟨hjoin, hlen, hnl⟩ := chunkLoop_spec limit fuel text ps hrec
      rw [show (some ps).map (List.map Prod.fst) = some (ps.map Prod.fst) from rfl] at h
      cases h
      refine ⟨?_, ps, rfl, hjoin, hnl⟩
      intro c hc
      obtain ⟨p, hp, rfl⟩ := List.mem_map.1 hc
      exact hlen p hp

/-- C5 witness: the five-character text ab-space-cd with limit 4 splits at
the space into chunks of length at most 4 that concatenate back. -/
theorem chunk_text_correct_witness :
    1 ≤ 4 ∧
    ((∀ c ∈ [['a', 'b'], [' ', 'c', 'd']], c.length ≤ 4) ∧
     ∃ ps : List (List Char × List Char),
       [['a', 'b'], [' ', 'c', 'd']] = ps.map Prod.fst ∧
       joinPairs ps = ['a', 'b', ' ', 'c', 'd'] ∧
       ∀ p ∈ ps, ∀ ch ∈ p.2, ch = '\n') :=
  ⟨by decide,
   chunk_text_correct 6 ['a', 'b', ' ', 'c', 'd'] 4 [['a', 'b'], [' ', 'c', 'd']]
     (by decide) (by decide)⟩

theorem chunkLoop_progress (limit : Nat) (h4 : 4 ≤ limit) :
    ∀ (fuel : Nat) (text : List Char), text.length < fuel →
      ∃ ps, chunkLoop limit fuel text = some ps := by
  intro fuel
  induction fuel with
  | zero => intro text h; omega
  | succ n ih =>
    intro text hlen
    by_cases he : text.isEmpty
    · exact ⟨[], by rw [chunkLoop, if_pos he]⟩
    · by_cases hle : text.length ≤ limit
      · exact ⟨[(text, [])], by rw [chunkLoop, if_neg he, if_pos hle]⟩
      · have hcut := chunkCut_pos text limit h4
        have hd : ((text.drop (chunkCut text limit).toNat).dropWhile
            (fun ch => ch == '\n')).length < n := by
          have h1 : ((text.drop (chunkCut text limit).toNat).dropWhile
              (fun ch => ch == '\n')).length ≤ (text.drop (chunkCut text limit).toNat).length :=
            (List.dropWhile_sublist _).length_le
          have h2 : (text.drop (chunkCut text limit).toNat).length =
              text.length - (chunkCut text limit).toNat := List.length_drop _ _
          omega
        obtain ⟨ps, hps⟩ := ih _ hd
        exact ⟨_, by rw [chunkLoop, if_neg he, if_neg hle, hps]⟩

/-- C6 amended: for `limit ≥ 4` the loop terminates on every input (fuel
`length + 1` suffices); for smaller limits it can diverge (see the
counterexample). -/
theorem chunk_text_terminates (text : List Char) (limit : Nat) (h4 : 4 ≤ limit) :
    ∃ cs, chunk_text (text.length + 1) text limit = some cs := by
  unfold chunk_text
  split_ifs with hle
  · exact ⟨[text], rfl⟩
  · obtain ⟨ps, hps⟩ := chunkLoop_progress limit h4 (text.length + 1) text (by omega)
    exact ⟨ps.map Prod.fst, by rw [hps]; rfl⟩

/-- C6 witness: termination at limit 4 on a concrete text. -/
theorem chunk_text_terminates_witness :
    4 ≤ 4 ∧ ∃ cs, chunk_text (['a', 'b', ' ', 'c', 'd'].length + 1) ['a', 'b', ' ', 'c', 'd'] 4 = some cs :=
  ⟨by decide, chunk_text_terminates ['a', 'b', ' ', 'c', 'd'] 4 (by decide)⟩

theorem chunkLoop_stuck : ∀ fuel : Nat, chunkLoop 1 fuel [' ', 'a'] = none := by
  intro fuel
  induction fuel with
  | zero => rfl
  | succ n ih =>
    rw [chunkLoop]
    have hcut : (chunkCut [' ', 'a'] 1).toNat = 0 := by decide
    rw [hcut]
    simp only [List.drop_zero, List.take_zero]
    have hdw : ([' ', 'a'].dropWhile (fun ch => ch == '\n')) = [' ', 'a'] := by decide
    rw [hdw, ih]
    rfl

/-- C6 counterexample: on the text made of a space and a letter with limit 1
(length 2 > 1, only delimiter a space at index 0, `limit // 4 = 0`, so the
cut is 0 and nothing is consumed) the loop never terminates: no amount of
fuel produces a result. -/
theorem chunk_text_diverges :
    ¬ ∃ (fuel : Nat) (cs : List (List Char)), chunk_text fuel [' ', 'a'] 1 = some cs := by
  rintro ⟨fuel, cs, h⟩
  unfold chunk_text at h
  rw [if_neg (by decide), chunkLoop_stuck fuel] at h
  cases h

/-- C10 amended: a non-empty message from any identity other than the
allowed user produces exactly the fixed notice and leaves the state (the
session registry included) unchanged — the Claude runner is never invoked;
an unauthorized callback produces exactly the acknowledgement of the button
press and nothing else. -/
theorem handle_unauthorized (allowed : Int) (env : HandleEnv) (st : BotState)
    (msg : Msg) (cb : Callback)
    (hm1 : pyStrip msg.text ≠ "") (hm2 : msg.from_id ≠ allowed)
    (hc : cb.from_id ≠ allowed) :
    handle_message allowed env st msg =
      some (.ok ([.sendMsg msg.chat_id "Not authorized."], st)) ∧
    handle_callback allowed env st cb = some (.ok ([.answerCallback cb.cb_id], st)) := by
  constructor
  · simp only [handle_message]
    rw [if_neg (show ¬((pyStrip msg.text == "") = true) by simpa using hm1), if_pos hm2]
  · simp only [handle_callback]
    rw [if_pos hc]

/-- C10 counterexample: an unauthorized callback still triggers one action,
the Telegram acknowledgement of the button press, which is issued before
the identity check. -/
theorem handle_callback_acks_unauthorized :
    handle_callback 5021811410 envHandler stEmpty ⟨"action:status", 1, 42, "cb1"⟩ =
      some (.ok ([.answerCallback "cb1"], stEmpty)) ∧
    ([Effect.answerCallback "cb1"] : List Effect) ≠ [] := by
  exact ⟨rfl, by decide⟩

/-- C10 witness: a concrete unauthorized message and callback. -/
theorem handle_unauthorized_witness :
    pyStrip "hello" ≠ "" ∧ (2 : Int) ≠ 1 ∧
    (handle_message 1 envHandler stEmpty ⟨7, 2, "hello"⟩ =
       some (.ok ([.sendMsg 7 "Not authorized."], stEmpty)) ∧
     handle_callback 1 envHandler stEmpty ⟨"x", 7, 2, "cb9"⟩ =
       some (.ok ([.answerCallback "cb9"], stEmpty))) :=
  ⟨by decide, by decide,
   handle_unauthorized 1 envHandler stEmpty ⟨7, 2, "hello"⟩ ⟨"x", 7, 2, "cb9"⟩
     (by decide) (by decide) (by decide)⟩
